import Mathlib

/-
Verification of the pyLocalEngine locale-resolution engine.

This file shallowly embeds the core of the repository:
  - localengine/core/locale_detector.py  (fallback-chain computation)
  - localengine/core/file_manager.py     (candidate-path resolution, TTL cache)
  - localengine/core/engine.py           (SetLocale state machine, GetText lookup,
                                          change notification, construction)

Python values, exceptions and dictionaries are modelled explicitly; machine
time is modelled as an integer clock passed to each operation; transport and
parsing are modelled as an oracle describing the outcome at each candidate
path, mirroring the exception classes the source code distinguishes.
-/

set_option autoImplicit false

/-! ### Python string helpers

The source manipulates Python strings with `in`, `split` and formatting.
These are modelled on the character list underlying a Lean `String`. -/

/-- Models the Python membership test `c in s` for a single-character `c`. -/
def strContains (s : String) (c : Char) : Bool :=
  s.data.contains c

/-- Splitting a character list at every occurrence of `sep`; models Python
`str.split(sep)` for a one-character separator (so `"" .split` gives `[""]`,
and adjacent separators give empty segments). -/
def splitCharList (sep : Char) : List Char → List (List Char)
  | [] => [[]]
  | c :: rest =>
    if c = sep then [] :: splitCharList sep rest
    else
      match splitCharList sep rest with
      | [] => [[c]]
      | seg :: segs => (c :: seg) :: segs

/-- Models Python `s.split(sep)` for a one-character separator. -/
def pySplit (s : String) (sep : Char) : List String :=
  (splitCharList sep s.data).map String.mk

/-! ### Python dictionaries as association lists -/

/-- First-match lookup in an association list; models `d[k]` / `k in d` for a
Python dict (whose keys are unique). -/
def assocGet {α : Type} : List (String × α) → String → Option α
  | [], _ => none
  | (k, v) :: rest, key => if k = key then some v else assocGet rest key

/-- Update-or-append; models the Python dict assignment `d[k] = v`. -/
def assocSet {α : Type} : List (String × α) → String → α → List (String × α)
  | [], key, v => [(key, v)]
  | (k, v') :: rest, key, v =>
    if k = key then (key, v) :: rest else (k, v') :: assocSet rest key v

/-! ### Python values

A parsed locale document is a Python dict of strings, nested dicts, and
scalars (`json.loads` / `yaml.safe_load` / the XML walker all produce such
trees).  `vnull` is the Python `None` object, which doubles as the "not
found" result of `_get_nested_value`. -/

inductive PyValue where
  | vstr (s : String)
  | vint (n : Int)
  | vbool (b : Bool)
  | vnull
  | vdict (entries : List (String × PyValue))

/-- A top-level locale document: the entries of the outermost dict. -/
def Doc := List (String × PyValue)

/-- Models the Python identity test `value is None` (a constructor check,
not a structural comparison). -/
def isNone : PyValue → Bool
  | .vnull => true
  | _ => false

mutual
/-- Models Python `repr` on the value shapes above (strings rendered with
single quotes, as CPython does for quote-free strings). -/
def pyRepr : PyValue → String
  | .vstr s => "\x27" ++ s ++ "\x27"
  | .vint n => toString n
  | .vbool b => if b then "True" else "False"
  | .vnull => "None"
  | .vdict entries => "\x7b" ++ pyReprEntries entries ++ "\x7d"

/-- Comma-separated `repr` of dict entries, as CPython renders a dict body. -/
def pyReprEntries : List (String × PyValue) → String
  | [] => ""
  | [(k, v)] => "\x27" ++ k ++ "\x27: " ++ pyRepr v
  | (k, v) :: rest => "\x27" ++ k ++ "\x27: " ++ pyRepr v ++ ", " ++ pyReprEntries rest
end

/-- Models the Python builtin `str` applied to a translation value
(`return str(value)` in `LocalEngine.get_text`). -/
def pyStr : PyValue → String
  | .vstr s => s
  | v => pyRepr v

/-! ### Exceptions

The source distinguishes, per `localengine/core/exceptions.py`:
`LocaleNotFoundError(locale)`, `LocaleFileError(path, msg)` (the spec's
`SourceError`), and `TranslationKeyError(key, locale)`; callbacks may raise
anything, modelled by `otherError`. -/

inductive PyErr where
  | localeNotFound (tag : String)
  | localeFileError
  | translationKeyNotFound (key : String) (locale : String)
  | otherError

/-- Outcome of `FileManager.load_locale_file` for one locale, as seen by the
engine: a parsed document, `LocaleNotFoundError`, or `LocaleFileError`. -/
inductive LoadResult where
  | ok (doc : Doc)
  | notFound
  | fileError

/-! ### Locale detector — fallback chains
(`LocaleDetector.get_fallback_locales`, locale_detector.py:136-174) -/

/-- The static `common_variants` table in `get_fallback_locales`. -/
def common_variants : String → Option (List String)
  | "en" => some ["en-US", "en-GB"]
  | "es" => some ["es-ES", "es-MX"]
  | "fr" => some ["fr-FR", "fr-CA"]
  | "de" => some ["de-DE", "de-AT"]
  | "pt" => some ["pt-PT", "pt-BR"]
  | "zh" => some ["zh-CN", "zh-TW"]
  | _ => none

/-- The guarded append pattern used throughout `get_fallback_locales`:
`if x != primary_locale and x not in fallbacks: fallbacks.append(x)`. -/
def guardedAppend (primary : String) (fallbacks : List String) (tag : String) : List String :=
  if tag ≠ primary ∧ tag ∉ fallbacks then fallbacks ++ [tag] else fallbacks

/-- `LocaleDetector.get_fallback_locales(primary_locale)`: the language-only
tag (`primary_locale.split("-")[0]`) when the tag has a dash, then the known
regional variants for that language, then `"en-US"` and `"en"`, each append
guarded against duplicates and against the originating tag. -/
def get_fallback_locales (primary_locale : String) : List String :=
  let fallbacks : List String := []
  let fallbacks :=
    if strContains primary_locale '-' then
      let language := (pySplit primary_locale '-').headD ""
      let fallbacks := fallbacks ++ [language]
      match common_variants language with
      | some variants => variants.foldl (guardedAppend primary_locale) fallbacks
      | none => fallbacks
    else fallbacks
  let fallbacks := guardedAppend primary_locale fallbacks "en-US"
  guardedAppend primary_locale fallbacks "en"

/-- `LocalEngine._get_fallback_locales` (engine.py:285-293): the detector
chain, with the engine default appended when absent and distinct from the
requested locale. -/
def engine_get_fallback_locales (default_locale : String) (locale : String) : List String :=
  let fallbacks := get_fallback_locales locale
  if default_locale ∉ fallbacks ∧ default_locale ≠ locale then fallbacks ++ [default_locale]
  else fallbacks

/-! ### File manager — candidate resolution
(`FileManager._load_from_source` / `_get_possible_file_paths`,
file_manager.py:83-119) -/

/-- Outcome of fetching and parsing one candidate path, mirroring the
exception classes `_load_from_source` distinguishes: success,
`FileNotFoundError` (local path absent), the `requests.RequestException`
family (`HTTPError` from a non-success status, `Timeout`,
`ConnectionError`), or any other exception (a parse failure). -/
inductive FetchOutcome where
  | ok (doc : Doc)
  | fileNotFound
  | httpStatusError
  | timeout
  | connectionError
  | parseError

/-- The outcomes caught by `except (FileNotFoundError, requests.RequestException):
continue` — treated as "this candidate is absent". -/
def caughtAsAbsent : FetchOutcome → Bool
  | .fileNotFound => true
  | .httpStatusError => true
  | .timeout => true
  | .connectionError => true
  | _ => false

/-- `FileManager._get_possible_file_paths(locale)`: the flat convention for
each extension, then the directory convention (extension outer, filename
inner). -/
def get_possible_file_paths (base_path : String) (locale : String) : List String :=
  (["json", "yaml", "yml", "xml"].map
    (fun ext => base_path ++ "/locales/" ++ locale ++ "." ++ ext))
  ++ (["json", "yaml", "yml", "xml"].map
    (fun ext => [locale, "locale", "translations"].map
      (fun filename => base_path ++ "/locales/" ++ locale ++ "/" ++ filename ++ "." ++ ext))).flatten

/-- `FileManager._load_from_source`: walk the candidate paths; a
`FileNotFoundError` or any `requests.RequestException` skips to the next
candidate, any other exception is re-raised as `LocaleFileError`
immediately, and exhaustion raises `LocaleNotFoundError(locale)`. -/
def load_from_source (fetch : String → FetchOutcome) (locale : String) :
    List String → Except PyErr Doc
  | [] => .error (.localeNotFound locale)
  | p :: rest =>
    match fetch p with
    | .ok doc => .ok doc
    | .fileNotFound => load_from_source fetch locale rest
    | .httpStatusError => load_from_source fetch locale rest
    | .timeout => load_from_source fetch locale rest
    | .connectionError => load_from_source fetch locale rest
    | .parseError => .error .localeFileError

/-! ### File manager — TTL cache
(`FileManager.load_locale_file` / `_is_cache_valid`, file_manager.py:46-81) -/

/-- The mutable fields of a `FileManager`: `_cache` and `_cache_timestamps`. -/
structure FMState where
  cache : List (String × Doc)
  timestamps : List (String × Int)

/-- `FileManager._is_cache_valid(locale)`: an entry and a timestamp exist and
`time.time() - ts < cache_timeout`. -/
def is_cache_valid (cache_timeout : Int) (fm : FMState) (now : Int) (locale : String) : Bool :=
  match assocGet fm.cache locale, assocGet fm.timestamps locale with
  | some _, some ts => decide (now - ts < cache_timeout)
  | _, _ => false

/-- Result of one `load_locale_file` call: the returned document or raised
exception, the file manager state afterwards, and whether
`_load_from_source` was invoked. -/
structure LoadFileOutcome where
  result : Except PyErr Doc
  state : FMState
  fetchedFromSource : Bool

/-- `FileManager.load_locale_file(locale, force_reload)` at clock `now`,
with `source` abstracting `_load_from_source`: return the cached document
when valid and not forced, otherwise fetch, store the document with the
current timestamp, and return it (exceptions propagate before anything is
stored). -/
def load_locale_file (cache_timeout : Int) (source : String → LoadResult)
    (fm : FMState) (now : Int) (locale : String) (force_reload : Bool) : LoadFileOutcome :=
  if !force_reload && is_cache_valid cache_timeout fm now locale then
    ⟨.ok ((assocGet fm.cache locale).getD []), fm, false⟩
  else
    match source locale with
    | .ok doc => ⟨.ok doc, ⟨assocSet fm.cache locale doc, assocSet fm.timestamps locale now⟩, true⟩
    | .notFound => ⟨.error (.localeNotFound locale), fm, true⟩
    | .fileError => ⟨.error .localeFileError, fm, true⟩

/-! ### Locale engine — change notification
(`LocalEngine._notify_locale_change`, engine.py:276-283) -/

/-- A registered change callback `(old_locale, new_locale) -> None`, which
may raise any exception. -/
abbrev Callback := Option String → String → Except PyErr Unit

/-- `LocalEngine._notify_locale_change`: invoke every callback in order,
catching and discarding whatever it raises (`except Exception: pass`). -/
def notify_locale_change (callbacks : List Callback) (old_locale : Option String)
    (new_locale : String) : Except PyErr Unit :=
  match callbacks with
  | [] => .ok ()
  | cb :: rest =>
    match cb old_locale new_locale with
    | .ok _ => notify_locale_change rest old_locale new_locale
    | .error _ => notify_locale_change rest old_locale new_locale

/-! ### Locale engine — SetLocale
(`LocalEngine.set_locale`, engine.py:73-115) -/

/-- The engine state mutated by `set_locale`: `_current_locale` and
`_fallback_locales`. -/
structure EngineState where
  current : Option String
  fallbacks : List String

/-- Result of one `set_locale` call: the return value or raised exception,
the engine state afterwards, and the `(old, new)` argument pairs with which
`_notify_locale_change` was invoked, in order. -/
structure SetLocaleOutcome where
  result : Except PyErr Unit
  state : EngineState
  notified : List (Option String × String)

/-- The fallback loop of `set_locale` (engine.py:101-112): for each fallback
try to load it, commit it together with its own recomputed chain, notify
when the locale actually changed, and return; `LocaleNotFoundError` raised
inside the loop body (by the load, or conceivably by a callback-raised
`LocaleNotFoundError` escaping a notifier) continues with the next
candidate, while any other exception propagates. -/
def set_locale_fallback_loop (load : String → LoadResult) (chainF : String → List String)
    (notifier : Option String → String → Except PyErr Unit)
    (old_locale : Option String) (requested : String) :
    EngineState → List String → SetLocaleOutcome
  | st, [] => ⟨.error (.localeNotFound requested), st, []⟩
  | st, fb :: rest =>
    match load fb with
    | .notFound => set_locale_fallback_loop load chainF notifier old_locale requested st rest
    | .fileError => ⟨.error .localeFileError, st, []⟩
    | .ok _ =>
      let st' : EngineState := ⟨some fb, chainF fb⟩
      if old_locale ≠ some fb then
        match notifier old_locale fb with
        | .ok _ => ⟨.ok (), st', [(old_locale, fb)]⟩
        | .error (.localeNotFound _) =>
          let r := set_locale_fallback_loop load chainF notifier old_locale requested st' rest
          ⟨r.result, r.state, (old_locale, fb) :: r.notified⟩
        | .error e => ⟨.error e, st', [(old_locale, fb)]⟩
      else ⟨.ok (), st', []⟩

/-- `LocalEngine.set_locale(locale)` with the chain computation and the
notifier abstracted: try to load the tag and commit it, and on
`LocaleNotFoundError` run the fallback loop over the tag's chain; total
exhaustion raises `LocaleNotFoundError` carrying the originally requested
tag. -/
def set_locale_core (load : String → LoadResult) (chainF : String → List String)
    (notifier : Option String → String → Except PyErr Unit)
    (st : EngineState) (tag : String) : SetLocaleOutcome :=
  let old_locale := st.current
  match load tag with
  | .ok _ =>
    let st' : EngineState := ⟨some tag, chainF tag⟩
    if old_locale ≠ some tag then
      match notifier old_locale tag with
      | .ok _ => ⟨.ok (), st', [(old_locale, tag)]⟩
      | .error (.localeNotFound _) =>
        let r := set_locale_fallback_loop load chainF notifier old_locale tag st' (chainF tag)
        ⟨r.result, r.state, (old_locale, tag) :: r.notified⟩
      | .error e => ⟨.error e, st', [(old_locale, tag)]⟩
    else ⟨.ok (), st', []⟩
  | .notFound => set_locale_fallback_loop load chainF notifier old_locale tag st (chainF tag)
  | .fileError => ⟨.error .localeFileError, st, []⟩

/-- `LocalEngine.set_locale` proper: chains come from
`_get_fallback_locales` and notification from `_notify_locale_change` over
the registered callbacks. -/
def set_locale (load : String → LoadResult) (callbacks : List Callback)
    (default_locale : String) (st : EngineState) (tag : String) : SetLocaleOutcome :=
  set_locale_core load (engine_get_fallback_locales default_locale)
    (notify_locale_change callbacks) st tag

/-! ### Locale engine — GetText
(`LocalEngine.get_text` / `_get_nested_value`, engine.py:122-196) -/

/-- Python truthiness of an optional string (`None` and `""` are falsy), as
used by `locale or ...` and `if not locale:` in `get_text`. -/
def pyTruthy : Option String → Bool
  | none => false
  | some s => if s = "" then false else true

/-- Python `a or b` for an optional string `a` and string `b`. -/
def pyOr (a : Option String) (b : String) : String :=
  match a with
  | none => b
  | some s => if s = "" then b else s

/-- `LocalEngine.get_current_locale`: `self._current_locale or
self.default_locale`. -/
def get_current_locale (st : EngineState) (default_locale : String) : String :=
  pyOr st.current default_locale

/-- Iterative descent of `_get_nested_value` over the split key: advance only
when the current value is a dict containing the segment, otherwise return
`None`. -/
def goNested : PyValue → List String → PyValue
  | cur, [] => cur
  | cur, k :: rest =>
    match cur with
    | .vdict d =>
      match assocGet d k with
      | some v => goNested v rest
      | none => .vnull
    | _ => .vnull

/-- `LocalEngine._get_nested_value(data, key)`: `data.get(key)` for a simple
key, else split on `"."` and descend; returns the Python `None` object when
anything is missing. -/
def get_nested_value (data : Doc) (key : String) : PyValue :=
  if strContains key '.' = false then (assocGet data key).getD .vnull
  else goNested (.vdict data) (pySplit key '.')

/-- One lookup attempt of `get_text` against a single locale (the body of
its try blocks): load the locale, look the key up, and return `str(value)`
when the value is not `None`; `LocaleNotFoundError` is absorbed into "no
result here", any other load exception propagates. -/
def tryLocaleLookup (load : String → LoadResult) (loc : String) (key : String) :
    Except PyErr (Option String) :=
  match load loc with
  | .ok doc =>
    let value := get_nested_value doc key
    if isNone value then .ok none else .ok (some (pyStr value))
  | .notFound => .ok none
  | .fileError => .error .localeFileError

/-- The fallback scan of `get_text` (engine.py:155-162). -/
def getTextFallbacks (load : String → LoadResult) (key : String) :
    List String → Except PyErr (Option String)
  | [] => .ok none
  | fb :: rest =>
    match tryLocaleLookup load fb key with
    | .error e => .error e
    | .ok (some s) => .ok (some s)
    | .ok none => getTextFallbacks load key rest

/-- `LocalEngine.get_text(key, default, locale)`: resolve the target locale
by Python truthiness, try it, scan `_fallback_locales` only when no locale
override was given, then return the default or raise
`TranslationKeyError(key, target_locale)`. -/
def get_text (load : String → LoadResult) (st : EngineState) (default_locale : String)
    (key : String) (default : Option String) (locale : Option String) : Except PyErr String :=
  let target_locale := pyOr locale (get_current_locale st default_locale)
  match tryLocaleLookup load target_locale key with
  | .error e => .error e
  | .ok (some s) => .ok s
  | .ok none =>
    match (if pyTruthy locale then Except.ok none else getTextFallbacks load key st.fallbacks) with
    | .error e => .error e
    | .ok (some s) => .ok s
    | .ok none =>
      match default with
      | some d => .ok d
      | none => .error (.translationKeyNotFound key target_locale)

/-! ### Locale engine — construction
(`LocalEngine.__init__`, engine.py:28-71) -/

/-- Result of constructing a `LocalEngine`: the constructed state or the
exception escaping the constructor, and whether the background update
thread was started. -/
structure InitOutcome where
  result : Except PyErr EngineState
  updateThreadStarted : Bool

/-- `LocalEngine.__init__`: starting from empty state, `set_locale` on the
detected locale (when auto-detect is on) or on the default locale, with no
callbacks registered yet; only if that returns normally is the update
checker thread started (when `check_updates_interval > 0`). -/
def engine_init (load : String → LoadResult) (default_locale : String)
    (auto_detect : Bool) (detected_locale : String)
    (check_updates_interval : Int) : InitOutcome :=
  let tag := if auto_detect then detected_locale else default_locale
  let out := set_locale load [] default_locale ⟨none, []⟩ tag
  match out.result with
  | .ok _ => ⟨.ok out.state, decide (0 < check_updates_interval)⟩
  | .error e => ⟨.error e, false⟩

/-! ### Concrete fixtures used by witnesses and counterexamples -/

/-- A locale store where only `"fr"` resolves. -/
def frOnlyLoad : String → LoadResult := fun l =>
  if l = "fr" then .ok [("greeting", PyValue.vstr "bonjour")] else .notFound

/-- A locale store whose `"en-US"` document carries only a `meta` mapping. -/
def metaOnlyLoad : String → LoadResult := fun l =>
  if l = "en-US" then .ok [("meta", PyValue.vdict [("version", PyValue.vstr "1.0")])]
  else .notFound

/-- A source that always yields the same one-entry document. -/
def constSource : String → LoadResult := fun _ => .ok [("k", PyValue.vstr "v")]

/-! ## Lemmas -/
theorem assocGet_assocSet_same {α : Type} (l : List (String × α)) (k : String) (v : α) :
    assocGet (assocSet l k v) k = some v := by
  induction l with
  | nil => simp [assocSet, assocGet]
  | cons hd tl ih =>
    obtain ⟨k', v'⟩ := hd
    by_cases h : k' = k
    · simp [assocSet, assocGet, h]
    · simp [assocSet, assocGet, h, ih]

/-! Chain invariants: no duplicates, and the originating tag never occurs. -/

theorem splitCharList_ne_nil (sep : Char) (l : List Char) : splitCharList sep l ≠ [] := by
  cases l with
  | nil => simp [splitCharList]
  | cons c rest =>
    by_cases h : c = sep
    · simp [splitCharList, h]
    · simp only [splitCharList, h, if_false]
      cases hs : splitCharList sep rest <;> simp

theorem splitCharList_headD (sep : Char) (l : List Char) :
    (splitCharList sep l).headD [] = l.takeWhile (fun c => decide (c ≠ sep)) := by
  induction l with
  | nil => simp [splitCharList]
  | cons c rest ih =>
    by_cases h : c = sep
    · simp [splitCharList, h, List.takeWhile]
    · simp only [splitCharList, h, if_false, List.takeWhile]
      cases hs : splitCharList sep rest with
      | nil => exact absurd hs (splitCharList_ne_nil sep rest)
      | cons seg segs =>
        rw [hs] at ih
        simp only [List.headD] at ih ⊢
        simp [h, ih]

theorem takeWhile_all {α : Type} (p : α → Bool) (l : List α) (h : l.takeWhile p = l) :
    ∀ a ∈ l, p a = true := by
  induction l with
  | nil => simp
  | cons x xs ih =>
    by_cases hx : p x = true
    · rw [List.takeWhile_cons, if_pos hx] at h
      intro a ha
      rcases List.mem_cons.mp ha with rfl | ha
      · exact hx
      · exact ih (by injection h) a ha
    · rw [List.takeWhile_cons, if_neg hx] at h
      exact absurd h (by simp)

theorem mem_of_contains (l : List Char) (c : Char) (h : l.contains c = true) : c ∈ l :=
  List.elem_iff.mp h

/-- When the tag contains a dash, the language-only component differs from
the full tag (the split head contains no dash). -/
theorem split_head_ne (p : String) (h : strContains p '-' = true) :
    (pySplit p '-').headD "" ≠ p := by
  intro heq
  have hne := splitCharList_ne_nil '-' p.data
  cases hs : splitCharList '-' p.data with
  | nil => exact hne hs
  | cons seg segs =>
    have hhead : (pySplit p '-').headD "" = String.mk seg := by
      simp [pySplit, hs]
    have hdata : seg = p.data := by
      rw [hhead] at heq
      have := congrArg String.data heq
      simpa using this
    have htake : (splitCharList '-' p.data).headD [] = p.data.takeWhile (fun c => decide (c ≠ '-')) :=
      splitCharList_headD '-' p.data
    rw [hs] at htake
    simp only [List.headD] at htake
    have hself : p.data.takeWhile (fun c => decide (c ≠ '-')) = p.data := by
      rw [← htake, hdata]
    have hall := takeWhile_all _ _ hself
    have hmem : '-' ∈ p.data := mem_of_contains _ _ h
    have := hall '-' hmem
    simp at this

theorem nodup_append_single {α : Type} (l : List α) (x : α) (hn : l.Nodup) (hx : x ∉ l) :
    (l ++ [x]).Nodup := by
  rw [List.nodup_append]
  refine ⟨hn, List.nodup_singleton x, ?_⟩
  intro a ha hb
  simp only [List.mem_singleton] at hb
  exact hx (hb ▸ ha)

theorem guardedAppend_inv (primary : String) (l : List String) (t : String)
    (h : l.Nodup ∧ primary ∉ l) :
    (guardedAppend primary l t).Nodup ∧ primary ∉ guardedAppend primary l t := by
  unfold guardedAppend
  by_cases hc : t ≠ primary ∧ t ∉ l
  · rw [if_pos hc]
    refine ⟨nodup_append_single l t h.1 hc.2, ?_⟩
    intro hmem
    rcases List.mem_append.mp hmem with hm | hm
    · exact h.2 hm
    · simp only [List.mem_singleton] at hm
      exact hc.1 hm.symm
  · rw [if_neg hc]; exact h

theorem foldl_guardedAppend_inv (primary : String) (vs : List String) :
    ∀ l : List String, l.Nodup ∧ primary ∉ l →
      (vs.foldl (guardedAppend primary) l).Nodup ∧
        primary ∉ vs.foldl (guardedAppend primary) l := by
  induction vs with
  | nil => intro l h; simpa using h
  | cons v rest ih =>
    intro l h
    simp only [List.foldl_cons]
    exact ih _ (guardedAppend_inv primary l v h)

/-- Detector chains never repeat a tag and never contain the originating tag. -/
theorem get_fallback_locales_inv (p : String) :
    (get_fallback_locales p).Nodup ∧ p ∉ get_fallback_locales p := by
  unfold get_fallback_locales
  by_cases hd : strContains p '-' = true
  · simp only [hd, if_true]
    have hbase : ([] ++ [(pySplit p '-').headD ""]).Nodup ∧
        p ∉ [] ++ [(pySplit p '-').headD ""] := by
      constructor
      · simp
      · simp only [List.nil_append, List.mem_singleton]
        exact fun h => (split_head_ne p hd) h.symm
    cases hv : common_variants ((pySplit p '-').headD "") with
    | none =>
      simp only [hv]
      exact guardedAppend_inv p _ "en" (guardedAppend_inv p _ "en-US" hbase)
    | some variants =>
      simp only [hv]
      exact guardedAppend_inv p _ "en"
        (guardedAppend_inv p _ "en-US" (foldl_guardedAppend_inv p variants _ hbase))
  · simp only [hd, if_false]
    have hbase : (([] : List String)).Nodup ∧ p ∉ ([] : List String) := by simp
    exact guardedAppend_inv p _ "en" (guardedAppend_inv p _ "en-US" hbase)

/-- Engine chains: no duplicates, originating tag excluded, and the default
locale present whenever it differs from the originating tag. -/
theorem engine_get_fallback_locales_inv (d p : String) :
    (engine_get_fallback_locales d p).Nodup ∧
      p ∉ engine_get_fallback_locales d p ∧
      (d ≠ p → d ∈ engine_get_fallback_locales d p) := by
  unfold engine_get_fallback_locales
  obtain ⟨hn, hp⟩ := get_fallback_locales_inv p
  by_cases hc : d ∉ get_fallback_locales p ∧ d ≠ p
  · rw [if_pos hc]
    refine ⟨nodup_append_single _ d hn hc.1, ?_, ?_⟩
    · intro hmem
      rcases List.mem_append.mp hmem with hm | hm
      · exact hp hm
      · simp only [List.mem_singleton] at hm
        exact hc.2 hm.symm
    · intro _
      simp
  · rw [if_neg hc]
    refine ⟨hn, hp, ?_⟩
    intro hdp
    rcases not_and_or.mp hc with hm | hm
    · simpa using hm
    · exact absurd hdp hm


/-! Notification never raises: `except Exception: pass` around every callback. -/

theorem notify_locale_change_ok (callbacks : List Callback) (old_locale : Option String)
    (new_locale : String) :
    notify_locale_change callbacks old_locale new_locale = .ok () := by
  induction callbacks with
  | nil => rfl
  | cons cb rest ih =>
    unfold notify_locale_change
    cases cb old_locale new_locale <;> exact ih

/-! The fallback loop of `set_locale`, characterized. -/

theorem set_locale_loop_all_notFound (load : String → LoadResult)
    (chainF : String → List String)
    (notifier : Option String → String → Except PyErr Unit)
    (old_locale : Option String) (requested : String) (l : List String)
    (h : ∀ fb ∈ l, load fb = .notFound) (st : EngineState) :
    set_locale_fallback_loop load chainF notifier old_locale requested st l =
      ⟨.error (.localeNotFound requested), st, []⟩ := by
  induction l generalizing st with
  | nil => rfl
  | cons fb rest ih =>
    have hfb := h fb (List.mem_cons_self fb rest)
    simp only [set_locale_fallback_loop, hfb]
    exact ih (fun x hx => h x (List.mem_cons_of_mem fb hx)) st

theorem set_locale_loop_first_ok (load : String → LoadResult)
    (chainF : String → List String)
    (notifier : Option String → String → Except PyErr Unit)
    (old_locale : Option String) (requested : String)
    (hnot : ∀ o w, notifier o w = .ok ())
    (fb : String) (doc : Doc) (hfb : load fb = .ok doc) (rest : List String)
    (pre : List String) (hpre : ∀ x ∈ pre, load x = .notFound) (st : EngineState) :
    set_locale_fallback_loop load chainF notifier old_locale requested st (pre ++ fb :: rest) =
      ⟨.ok (), ⟨some fb, chainF fb⟩,
        if old_locale ≠ some fb then [(old_locale, fb)] else []⟩ := by
  induction pre generalizing st with
  | nil =>
    by_cases h : old_locale = some fb
    · simp [set_locale_fallback_loop, hfb, hnot, h]
    · simp [set_locale_fallback_loop, hfb, hnot, h]
  | cons q qrest ih =>
    have hq := hpre q (List.mem_cons_self q qrest)
    simp only [List.cons_append, set_locale_fallback_loop, hq]
    exact ih (fun x hx => hpre x (List.mem_cons_of_mem q hx)) st

theorem set_locale_loop_ok_or_silent (load : String → LoadResult)
    (chainF : String → List String)
    (notifier : Option String → String → Except PyErr Unit)
    (old_locale : Option String) (requested : String)
    (hnot : ∀ o w, notifier o w = .ok ()) (l : List String) (st : EngineState) :
    (set_locale_fallback_loop load chainF notifier old_locale requested st l).result = .ok ()
    ∨ (set_locale_fallback_loop load chainF notifier old_locale requested st l).notified = [] := by
  induction l generalizing st with
  | nil => right; rfl
  | cons fb rest ih =>
    cases hfb : load fb with
    | notFound => simpa only [set_locale_fallback_loop, hfb] using ih st
    | fileError => right; simp [set_locale_fallback_loop, hfb]
    | ok doc =>
      by_cases h : old_locale = some fb
      · left; simp [set_locale_fallback_loop, hfb, h]
      · left; simp [set_locale_fallback_loop, hfb, hnot, h]

theorem set_locale_loop_ok_loaded (load : String → LoadResult)
    (chainF : String → List String)
    (notifier : Option String → String → Except PyErr Unit)
    (old_locale : Option String) (requested : String)
    (hnot : ∀ o w, notifier o w = .ok ()) (l : List String) (st : EngineState)
    (h : (set_locale_fallback_loop load chainF notifier old_locale requested st l).result
      = .ok ()) :
    ∃ (fb : String) (doc : Doc),
      (set_locale_fallback_loop load chainF notifier old_locale requested st l).state
        = ⟨some fb, chainF fb⟩
      ∧ load fb = .ok doc := by
  induction l generalizing st with
  | nil => exact absurd h (by simp [set_locale_fallback_loop])
  | cons fb rest ih =>
    cases hfb : load fb with
    | notFound =>
      simp only [set_locale_fallback_loop, hfb] at h ⊢
      exact ih st h
    | fileError => exact absurd h (by simp [set_locale_fallback_loop, hfb])
    | ok doc =>
      by_cases hold : old_locale = some fb
      · refine ⟨fb, doc, ?_, hfb⟩
        simp [set_locale_fallback_loop, hfb, hold]
      · refine ⟨fb, doc, ?_, hfb⟩
        simp [set_locale_fallback_loop, hfb, hnot, hold]

theorem set_locale_loop_notifier_congr (load : String → LoadResult)
    (chainF : String → List String)
    (n n' : Option String → String → Except PyErr Unit)
    (hn : ∀ o w, n o w = .ok ()) (hn' : ∀ o w, n' o w = .ok ())
    (old_locale : Option String) (requested : String) (l : List String) (st : EngineState) :
    set_locale_fallback_loop load chainF n old_locale requested st l =
      set_locale_fallback_loop load chainF n' old_locale requested st l := by
  induction l generalizing st with
  | nil => rfl
  | cons fb rest ih =>
    cases hfb : load fb with
    | notFound =>
      simp only [set_locale_fallback_loop, hfb]
      exact ih st
    | fileError => simp [set_locale_fallback_loop, hfb]
    | ok doc =>
      by_cases h : old_locale = some fb
      · simp [set_locale_fallback_loop, hfb, h]
      · simp [set_locale_fallback_loop, hfb, hn, hn', h]

/-! `set_locale_core`, characterized. -/

theorem set_locale_core_all_notFound (load : String → LoadResult)
    (chainF : String → List String)
    (notifier : Option String → String → Except PyErr Unit)
    (st : EngineState) (tag : String)
    (h1 : load tag = .notFound) (h2 : ∀ fb ∈ chainF tag, load fb = .notFound) :
    set_locale_core load chainF notifier st tag = ⟨.error (.localeNotFound tag), st, []⟩ := by
  simp only [set_locale_core, h1]
  exact set_locale_loop_all_notFound load chainF notifier st.current tag (chainF tag) h2 st

theorem set_locale_core_notifier_congr (load : String → LoadResult)
    (chainF : String → List String)
    (n n' : Option String → String → Except PyErr Unit)
    (hn : ∀ o w, n o w = .ok ()) (hn' : ∀ o w, n' o w = .ok ())
    (st : EngineState) (tag : String) :
    set_locale_core load chainF n st tag = set_locale_core load chainF n' st tag := by
  cases htag : load tag with
  | notFound =>
    simp only [set_locale_core, htag]
    exact set_locale_loop_notifier_congr load chainF n n' hn hn' st.current tag (chainF tag) st
  | fileError => simp [set_locale_core, htag]
  | ok doc =>
    by_cases h : st.current = some tag
    · simp [set_locale_core, htag, h]
    · simp [set_locale_core, htag, hn, hn', h]

theorem set_locale_core_ok_loaded (load : String → LoadResult)
    (chainF : String → List String)
    (notifier : Option String → String → Except PyErr Unit)
    (st : EngineState) (tag : String)
    (hnot : ∀ o w, notifier o w = .ok ())
    (h : (set_locale_core load chainF notifier st tag).result = .ok ()) :
    ∃ (l : String) (doc : Doc),
      (set_locale_core load chainF notifier st tag).state = ⟨some l, chainF l⟩
      ∧ load l = .ok doc := by
  cases htag : load tag with
  | notFound =>
    simp only [set_locale_core, htag] at h ⊢
    exact set_locale_loop_ok_loaded load chainF notifier st.current tag hnot (chainF tag) st h
  | fileError => exact absurd h (by simp [set_locale_core, htag])
  | ok doc =>
    by_cases hold : st.current = some tag
    · refine ⟨tag, doc, ?_, htag⟩
      simp [set_locale_core, htag, hold]
    · refine ⟨tag, doc, ?_, htag⟩
      simp [set_locale_core, htag, hnot, hold]

theorem set_locale_core_error_silent (load : String → LoadResult)
    (chainF : String → List String)
    (notifier : Option String → String → Except PyErr Unit)
    (st : EngineState) (tag : String)
    (hnot : ∀ o w, notifier o w = .ok ()) (e : PyErr)
    (h : (set_locale_core load chainF notifier st tag).result = .error e) :
    (set_locale_core load chainF notifier st tag).notified = [] := by
  cases htag : load tag with
  | notFound =>
    simp only [set_locale_core, htag] at h ⊢
    rcases set_locale_loop_ok_or_silent load chainF notifier st.current tag hnot (chainF tag) st
      with hok | hsil
    · rw [h] at hok; exact absurd hok (by simp)
    · exact hsil
  | fileError => simp [set_locale_core, htag]
  | ok doc =>
    by_cases hold : st.current = some tag
    · simp [set_locale_core, htag, hold] at h
    · simp [set_locale_core, htag, hnot, hold] at h

/-! `get_text` helper facts. -/

theorem tryLocaleLookup_not_keyError (load : String → LoadResult) (loc key k2 l2 : String) :
    tryLocaleLookup load loc key ≠ .error (.translationKeyNotFound k2 l2) := by
  unfold tryLocaleLookup
  cases load loc with
  | ok doc =>
    dsimp only
    split <;> simp
  | notFound => simp
  | fileError => simp

theorem getTextFallbacks_not_keyError (load : String → LoadResult) (key k2 l2 : String)
    (l : List String) :
    getTextFallbacks load key l ≠ .error (.translationKeyNotFound k2 l2) := by
  induction l with
  | nil => simp [getTextFallbacks]
  | cons fb rest ih =>
    unfold getTextFallbacks
    cases h : tryLocaleLookup load fb key with
    | error e =>
      have := tryLocaleLookup_not_keyError load fb key k2 l2
      rw [h] at this
      exact this
    | ok o =>
      cases o with
      | some s => simp
      | none => exact ih

/-! Candidate iteration: skipped outcomes do not affect the result. -/

theorem load_from_source_skip (fetch : String → FetchOutcome) (locale : String)
    (pre : List String) (hpre : ∀ q ∈ pre, caughtAsAbsent (fetch q) = true)
    (l : List String) :
    load_from_source fetch locale (pre ++ l) = load_from_source fetch locale l := by
  induction pre with
  | nil => rfl
  | cons q rest ih =>
    have hq := hpre q (List.mem_cons_self q rest)
    have hrest := ih (fun x hx => hpre x (List.mem_cons_of_mem q hx))
    cases hf : fetch q with
    | ok doc => rw [hf] at hq; simp [caughtAsAbsent] at hq
    | parseError => rw [hf] at hq; simp [caughtAsAbsent] at hq
    | fileNotFound => simp [load_from_source, hf, hrest]
    | httpStatusError => simp [load_from_source, hf, hrest]
    | timeout => simp [load_from_source, hf, hrest]
    | connectionError => simp [load_from_source, hf, hrest]

/-! ## Claims -/

/-- Claim C1: when the requested tag does not resolve and every tag in its
fallback chain also fails to resolve, `set_locale` raises
`LocaleNotFoundError` carrying the originally requested tag, leaves the
engine state (current locale and fallback chain) exactly as it was, and
fires no change notification. -/
theorem c1_set_locale_total_failure_atomic (load : String → LoadResult)
    (callbacks : List Callback) (default_locale : String) (st : EngineState) (tag : String)
    (h1 : load tag = .notFound)
    (h2 : ∀ fb ∈ engine_get_fallback_locales default_locale tag, load fb = .notFound) :
    set_locale load callbacks default_locale st tag =
      ⟨.error (.localeNotFound tag), st, []⟩ :=
  set_locale_core_all_notFound load (engine_get_fallback_locales default_locale)
    (notify_locale_change callbacks) st tag h1 h2

theorem c1_set_locale_total_failure_atomic_witness :
    set_locale (fun _ => LoadResult.notFound) [] "en-US"
        ⟨some "de-DE", ["de", "en-US", "en"]⟩ "xx-XX" =
      ⟨.error (.localeNotFound "xx-XX"), ⟨some "de-DE", ["de", "en-US", "en"]⟩, []⟩ :=
  c1_set_locale_total_failure_atomic (fun _ => LoadResult.notFound) [] "en-US"
    ⟨some "de-DE", ["de", "en-US", "en"]⟩ "xx-XX" rfl (fun _ _ => rfl)

/-- Claim C2: when the requested tag fails to resolve but its fallback chain
has a first loadable tag `fb` (everything before `fb` failing to resolve),
`set_locale` returns normally, commits `fb` with `fb`'s own recomputed
chain, and the notification trace is exactly one `(previous, fb)` pair —
with `fb` never equal to the requested tag — when the previous locale
differs from `fb`, and empty otherwise; moreover any `set_locale` call that
raises fires no notification at all. -/
theorem c2_set_locale_fallback_commit :
    (∀ (load : String → LoadResult) (callbacks : List Callback) (default_locale : String)
        (st : EngineState) (tag : String) (pre : List String) (fb : String)
        (rest : List String) (doc : Doc),
      load tag = .notFound →
      engine_get_fallback_locales default_locale tag = pre ++ fb :: rest →
      (∀ x ∈ pre, load x = .notFound) →
      load fb = .ok doc →
      (set_locale load callbacks default_locale st tag).result = .ok ()
      ∧ (set_locale load callbacks default_locale st tag).state =
          ⟨some fb, engine_get_fallback_locales default_locale fb⟩
      ∧ fb ≠ tag
      ∧ (set_locale load callbacks default_locale st tag).notified =
          (if st.current ≠ some fb then [(st.current, fb)] else []))
    ∧ (∀ (load : String → LoadResult) (callbacks : List Callback) (default_locale : String)
        (st : EngineState) (tag : String) (e : PyErr),
      (set_locale load callbacks default_locale st tag).result = .error e →
      (set_locale load callbacks default_locale st tag).notified = []) := by
  constructor
  · intro load callbacks default_locale st tag pre fb rest doc h1 hchain hpre hfb
    have hout : set_locale load callbacks default_locale st tag =
        ⟨.ok (), ⟨some fb, engine_get_fallback_locales default_locale fb⟩,
          if st.current ≠ some fb then [(st.current, fb)] else []⟩ := by
      unfold set_locale set_locale_core
      simp only [h1, hchain]
      exact set_locale_loop_first_ok load (engine_get_fallback_locales default_locale)
        (notify_locale_change callbacks) st.current tag
        (notify_locale_change_ok callbacks) fb doc hfb rest pre hpre st
    have hne : fb ≠ tag := by
      intro heq
      have hmem : fb ∈ engine_get_fallback_locales default_locale tag := by
        rw [hchain]
        exact List.mem_append_right pre (List.mem_cons_self fb rest)
      exact (engine_get_fallback_locales_inv default_locale tag).2.1 (heq ▸ hmem)
    rw [hout]
    exact ⟨rfl, rfl, hne, rfl⟩
  · intro load callbacks default_locale st tag e h
    exact set_locale_core_error_silent load (engine_get_fallback_locales default_locale)
      (notify_locale_change callbacks) st tag (notify_locale_change_ok callbacks) e h

theorem c2_set_locale_fallback_commit_witness :
    (set_locale frOnlyLoad [] "en-US" ⟨some "en-US", ["en"]⟩ "fr-FR").result = .ok ()
    ∧ (set_locale frOnlyLoad [] "en-US" ⟨some "en-US", ["en"]⟩ "fr-FR").state =
        ⟨some "fr", engine_get_fallback_locales "en-US" "fr"⟩
    ∧ "fr" ≠ "fr-FR"
    ∧ (set_locale frOnlyLoad [] "en-US" ⟨some "en-US", ["en"]⟩ "fr-FR").notified =
        (if (some "en-US" : Option String) ≠ some "fr" then [(some "en-US", "fr")] else []) :=
  c2_set_locale_fallback_commit.1 frOnlyLoad [] "en-US" ⟨some "en-US", ["en"]⟩ "fr-FR"
    [] "fr" ["fr-CA", "en-US", "en"] [("greeting", PyValue.vstr "bonjour")]
    rfl rfl (fun _ hx => nomatch hx) rfl

/-- Claim C8: `_notify_locale_change` catches and discards whatever any
registered callback raises, so it always returns normally, and a
`set_locale` call behaves — result, committed state and notification trace
alike — exactly as it would with no callbacks registered: a raising
callback neither unwinds into the caller nor prevents the commit. -/
theorem c8_callback_exceptions_swallowed (callbacks : List Callback) :
    (∀ (old_locale : Option String) (new_locale : String),
      notify_locale_change callbacks old_locale new_locale = .ok ())
    ∧ (∀ (load : String → LoadResult) (default_locale : String) (st : EngineState)
        (tag : String),
      set_locale load callbacks default_locale st tag =
        set_locale load [] default_locale st tag) :=
  ⟨notify_locale_change_ok callbacks,
   fun load default_locale st tag =>
     set_locale_core_notifier_congr load (engine_get_fallback_locales default_locale)
       (notify_locale_change callbacks) (notify_locale_change [])
       (notify_locale_change_ok callbacks) (notify_locale_change_ok []) st tag⟩

/-- Claim C10: construction performs a `set_locale` on the detected locale
(auto-detect) or the default locale; if that tag and its whole fallback
chain fail to resolve the constructor raises `LocaleNotFoundError` and the
update-checker thread is never started, and conversely a successfully
constructed engine always has a present current locale whose document
loaded successfully. -/
theorem c10_init_requires_loadable_locale :
    (∀ (load : String → LoadResult) (default_locale : String) (auto_detect : Bool)
        (detected_locale : String) (check_updates_interval : Int) (tag : String),
      tag = (if auto_detect then detected_locale else default_locale) →
      load tag = .notFound →
      (∀ fb ∈ engine_get_fallback_locales default_locale tag, load fb = .notFound) →
      engine_init load default_locale auto_detect detected_locale check_updates_interval =
        ⟨.error (.localeNotFound tag), false⟩)
    ∧ (∀ (load : String → LoadResult) (default_locale : String) (auto_detect : Bool)
        (detected_locale : String) (check_updates_interval : Int) (st : EngineState),
      (engine_init load default_locale auto_detect detected_locale
          check_updates_interval).result = .ok st →
      ∃ (l : String) (doc : Doc), st.current = some l ∧ load l = .ok doc) := by
  constructor
  · intro load default_locale auto_detect detected_locale check_updates_interval tag
      htag h1 h2
    have hout := set_locale_core_all_notFound load
      (engine_get_fallback_locales default_locale) (notify_locale_change [])
      ⟨none, []⟩ (if auto_detect then detected_locale else default_locale)
      (htag ▸ h1) (htag ▸ h2)
    simp only [engine_init, set_locale, hout, htag]
  · intro load default_locale auto_detect detected_locale check_updates_interval st h
    simp only [engine_init, set_locale] at h
    cases hres : (set_locale_core load (engine_get_fallback_locales default_locale)
        (notify_locale_change []) ⟨none, []⟩
        (if auto_detect then detected_locale else default_locale)).result with
    | error e =>
      rw [hres] at h
      exact absurd h (by simp)
    | ok u =>
      cases u
      rw [hres] at h
      simp only [Except.ok.injEq] at h
      obtain ⟨l, doc, hstate, hload⟩ := set_locale_core_ok_loaded load
        (engine_get_fallback_locales default_locale) (notify_locale_change [])
        ⟨none, []⟩ (if auto_detect then detected_locale else default_locale)
        (notify_locale_change_ok []) hres
      refine ⟨l, doc, ?_, hload⟩
      rw [← h, hstate]

theorem c10_init_requires_loadable_locale_witness :
    engine_init (fun _ => LoadResult.notFound) "en-US" true "xx" 300 =
      ⟨.error (.localeNotFound "xx"), false⟩ :=
  c10_init_requires_loadable_locale.1 (fun _ => LoadResult.notFound) "en-US" true "xx" 300
    "xx" rfl rfl (fun _ _ => rfl)

/-- Claim C7 counterexample: the chain the engine computes for `"fr-FR"`
with configured default `"en-US"` is `["fr", "fr-CA", "en-US", "en"]`,
whose last element is `"en"`, not the configured default — refuting "the
chain ends with the engine's configured default locale". -/
theorem c7_chain_counterexample :
    engine_get_fallback_locales "en-US" "fr-FR" = ["fr", "fr-CA", "en-US", "en"]
    ∧ (engine_get_fallback_locales "en-US" "fr-FR").getLast? ≠ some "en-US" := by
  constructor
  · rfl
  · decide

/-- Claim C7 (amended): every computed fallback chain is duplicate-free and
excludes the originating tag, and it contains (though does not necessarily
end with) the engine's configured default locale whenever that default
differs from the originating tag; in particular the chain computed for
`"en-US"` contains `"en"` but not `"en-US"`. -/
theorem c7_chain_invariants :
    (∀ (default_locale locale : String),
      (engine_get_fallback_locales default_locale locale).Nodup
      ∧ locale ∉ engine_get_fallback_locales default_locale locale
      ∧ (default_locale ≠ locale →
          default_locale ∈ engine_get_fallback_locales default_locale locale))
    ∧ "en" ∈ get_fallback_locales "en-US"
    ∧ "en-US" ∉ get_fallback_locales "en-US" := by
  refine ⟨engine_get_fallback_locales_inv, ?_, ?_⟩ <;> decide

theorem c7_chain_invariants_witness :
    "en-US" ≠ "fr-FR" ∧ "en-US" ∈ engine_get_fallback_locales "en-US" "fr-FR" :=
  ⟨by decide, (c7_chain_invariants.1 "en-US" "fr-FR").2.2 (by decide)⟩

/-- Claim C3 counterexample: a first candidate whose fetch raises
`requests.Timeout` — a transport fault other than "absent" — is skipped and
iteration continues to the next candidate (which succeeds here), rather
than the fault being raised immediately with no further candidates tried. -/
theorem c3_timeout_skipped_counterexample :
    (fun p : String => if p = "b/locales/en.json" then FetchOutcome.timeout
        else FetchOutcome.ok [("g", PyValue.vstr "hi")]) "b/locales/en.json"
      = FetchOutcome.timeout
    ∧ load_from_source
        (fun p : String => if p = "b/locales/en.json" then FetchOutcome.timeout
          else FetchOutcome.ok [("g", PyValue.vstr "hi")])
        "en" ["b/locales/en.json", "b/locales/en.yaml"]
      = .ok [("g", PyValue.vstr "hi")] :=
  ⟨rfl, rfl⟩

/-- Claim C3 (amended): during candidate iteration, a missing local file,
a remote non-success status, and every other `requests` transport fault
(timeouts and connection failures included) all cause iteration to continue
with the next candidate; a candidate that is present but fails to parse
raises `LocaleFileError` (the spec's `SourceError`) immediately with no
further candidates tried; and only exhaustion of all candidates yields
`LocaleNotFoundError` for the locale. -/
theorem c3_candidate_iteration :
    (∀ (fetch : String → FetchOutcome) (locale : String) (paths : List String),
      (∀ p ∈ paths, caughtAsAbsent (fetch p) = true) →
      load_from_source fetch locale paths = .error (.localeNotFound locale))
    ∧ (∀ (fetch : String → FetchOutcome) (locale : String) (pre : List String) (p : String)
        (rest : List String) (doc : Doc),
      (∀ q ∈ pre, caughtAsAbsent (fetch q) = true) →
      fetch p = .ok doc →
      load_from_source fetch locale (pre ++ p :: rest) = .ok doc)
    ∧ (∀ (fetch : String → FetchOutcome) (locale : String) (pre : List String) (p : String)
        (rest : List String),
      (∀ q ∈ pre, caughtAsAbsent (fetch q) = true) →
      fetch p = .parseError →
      load_from_source fetch locale (pre ++ p :: rest) = .error .localeFileError) := by
  refine ⟨?_, ?_, ?_⟩
  · intro fetch locale paths h
    induction paths with
    | nil => rfl
    | cons p rest ih =>
      have hp := h p (List.mem_cons_self p rest)
      have hrest := ih (fun q hq => h q (List.mem_cons_of_mem p hq))
      cases hf : fetch p with
      | ok doc => rw [hf] at hp; simp [caughtAsAbsent] at hp
      | parseError => rw [hf] at hp; simp [caughtAsAbsent] at hp
      | fileNotFound => simp [load_from_source, hf, hrest]
      | httpStatusError => simp [load_from_source, hf, hrest]
      | timeout => simp [load_from_source, hf, hrest]
      | connectionError => simp [load_from_source, hf, hrest]
  · intro fetch locale pre p rest doc hpre hp
    rw [load_from_source_skip fetch locale pre hpre (p :: rest)]
    simp [load_from_source, hp]
  · intro fetch locale pre p rest hpre hp
    rw [load_from_source_skip fetch locale pre hpre (p :: rest)]
    simp [load_from_source, hp]

theorem c3_candidate_iteration_witness :
    load_from_source (fun _ => FetchOutcome.fileNotFound) "zz"
        ["b/locales/zz.json", "b/locales/zz.yaml"] = .error (.localeNotFound "zz") :=
  c3_candidate_iteration.1 (fun _ => FetchOutcome.fileNotFound) "zz"
    ["b/locales/zz.json", "b/locales/zz.yaml"] (fun _ _ => rfl)

/-- Claim C5: dotted-path lookup splits the key on `"."` and descends
iteratively: `"a.b.c"` over `{"a":{"b":{"c":"x"}}}` resolves to `"x"`, the
same key over `{"a":{"b":"leaf"}}` (where an intermediate segment is not a
mapping) resolves to Python `None` ("not found") rather than raising, and
`get_text` over such a document then falls through to the supplied default
instead of failing. -/
theorem c5_dotted_path_descent :
    get_nested_value
        [("a", PyValue.vdict [("b", PyValue.vdict [("c", PyValue.vstr "x")])])] "a.b.c"
      = PyValue.vstr "x"
    ∧ get_nested_value [("a", PyValue.vdict [("b", PyValue.vstr "leaf")])] "a.b.c"
      = PyValue.vnull
    ∧ get_text
        (fun l => if l = "en-US"
          then LoadResult.ok [("a", PyValue.vdict [("b", PyValue.vstr "leaf")])]
          else LoadResult.notFound)
        ⟨some "en-US", []⟩ "en-US" "a.b.c" (some "Bye") none
      = .ok "Bye" :=
  ⟨rfl, rfl, rfl⟩

/-- Claim C4: with an explicit (non-empty, hence truthy) locale override,
`get_text` never consults the engine state — neither the current locale nor
the fallback chain (its result is identical for any two engine states) —
and when the override's document misses the key (or the override cannot be
resolved at all), it returns the supplied default if one was given and
otherwise raises `TranslationKeyError` carrying the key and the override;
moreover, whenever a default is supplied, `TranslationKeyError` is never
raised, explicit override or not. -/
theorem c4_explicit_locale_no_fallback :
    (∀ (load : String → LoadResult) (st st' : EngineState) (default_locale key : String)
        (default : Option String) (loc : String), loc ≠ "" →
      get_text load st default_locale key default (some loc) =
        get_text load st' default_locale key default (some loc))
    ∧ (∀ (load : String → LoadResult) (st : EngineState) (default_locale key : String)
        (default : Option String) (loc : String), loc ≠ "" →
      (load loc = .notFound
        ∨ ∃ doc, load loc = .ok doc ∧ isNone (get_nested_value doc key) = true) →
      get_text load st default_locale key default (some loc) =
        (match default with
         | some d => .ok d
         | none => .error (.translationKeyNotFound key loc)))
    ∧ (∀ (load : String → LoadResult) (st : EngineState) (default_locale key : String)
        (dv : String) (locale : Option String) (k2 l2 : String),
      get_text load st default_locale key (some dv) locale ≠
        .error (.translationKeyNotFound k2 l2)) := by
  refine ⟨?_, ?_, ?_⟩
  · intro load st st' default_locale key default loc hloc
    simp [get_text, pyOr, pyTruthy, hloc]
  · intro load st default_locale key default loc hloc hmiss
    have htry : tryLocaleLookup load loc key = .ok none := by
      rcases hmiss with hnf | ⟨doc, hdoc, hnone⟩
      · simp [tryLocaleLookup, hnf]
      · simp [tryLocaleLookup, hdoc, hnone]
    simp [get_text, pyOr, pyTruthy, hloc, htry]
  · intro load st default_locale key dv locale k2 l2
    unfold get_text
    dsimp only
    cases h1 : tryLocaleLookup load (pyOr locale (get_current_locale st default_locale)) key with
    | error e =>
      have hne := tryLocaleLookup_not_keyError load
        (pyOr locale (get_current_locale st default_locale)) key k2 l2
      rw [h1] at hne
      have he : e ≠ .translationKeyNotFound k2 l2 := fun hh => hne (by rw [hh])
      simp [he]
    | ok o =>
      cases o with
      | some s => simp
      | none =>
        cases hb : pyTruthy locale with
        | true => simp
        | false =>
          cases h2 : getTextFallbacks load key st.fallbacks with
          | error e =>
            have hne := getTextFallbacks_not_keyError load key k2 l2 st.fallbacks
            rw [h2] at hne
            have he : e ≠ .translationKeyNotFound k2 l2 := fun hh => hne (by rw [hh])
            simp [he]
          | ok o2 => cases o2 <;> simp

theorem c4_explicit_locale_no_fallback_witness :
    get_text (fun _ => LoadResult.notFound) ⟨some "en-US", ["en"]⟩ "en-US" "greeting"
      (some "X") (some "de-DE") = .ok "X" :=
  c4_explicit_locale_no_fallback.2.1 (fun _ => LoadResult.notFound)
    ⟨some "en-US", ["en"]⟩ "en-US" "greeting" (some "X") "de-DE" (by decide) (Or.inl rfl)

/-- Claim C9: whenever the dotted-path lookup in the target locale's
document resolves to a value `v` that is not the Python `None` object —
including nested sub-mappings and non-string scalars — `get_text` returns
`str(v)` rather than treating the lookup as a miss or raising; in
particular the reserved key `"meta"` resolves to the textual rendering of
its sub-mapping, and a path descending into it resolves like any ordinary
key. -/
theorem c9_non_string_values_stringified :
    (∀ (load : String → LoadResult) (st : EngineState) (default_locale key : String)
        (default locale : Option String) (doc : Doc) (v : PyValue),
      load (pyOr locale (get_current_locale st default_locale)) = .ok doc →
      get_nested_value doc key = v →
      isNone v = false →
      get_text load st default_locale key default locale = .ok (pyStr v))
    ∧ get_text metaOnlyLoad ⟨some "en-US", []⟩ "en-US" "meta" none none =
        .ok (pyStr (PyValue.vdict [("version", PyValue.vstr "1.0")]))
    ∧ get_text metaOnlyLoad ⟨some "en-US", []⟩ "en-US" "meta.version" none none = .ok "1.0" := by
  refine ⟨?_, rfl, rfl⟩
  intro load st default_locale key default locale doc v hload hval hnn
  simp [get_text, tryLocaleLookup, hload, hval, hnn]

theorem c9_non_string_values_stringified_witness :
    get_text (fun _ => LoadResult.ok [("count", PyValue.vbool true)]) ⟨none, []⟩ "en-US"
      "count" none none = .ok (pyStr (PyValue.vbool true)) :=
  c9_non_string_values_stringified.1 (fun _ => LoadResult.ok [("count", PyValue.vbool true)])
    ⟨none, []⟩ "en-US" "count" none none [("count", PyValue.vbool true)]
    (PyValue.vbool true) rfl rfl rfl

/-- Claim C6: with cache TTL `T`, a `load_locale_file` at time `t0` that
misses the cache fetches from the source and stores the document with
timestamp `t0`; a subsequent call at any `t1 < t0 + T` returns the cached
document without invoking source resolution (state untouched), while a call
at any `t1 ≥ t0 + T` re-invokes source resolution and overwrites the
entry's timestamp with `t1`; and with `T = 0` every call whose stored
timestamp does not lie in the future refetches from the source. -/
theorem c6_cache_ttl (T : Int) (source : String → LoadResult) (fm0 : FMState) (t0 : Int)
    (loc : String) (doc : Doc) (o0 : LoadFileOutcome)
    (hsrc : source loc = .ok doc)
    (hmiss : is_cache_valid T fm0 t0 loc = false)
    (ho : o0 = load_locale_file T source fm0 t0 loc false) :
    o0.fetchedFromSource = true
    ∧ o0.result = .ok doc
    ∧ assocGet o0.state.timestamps loc = some t0
    ∧ (∀ t1 : Int, t1 < t0 + T →
        load_locale_file T source o0.state t1 loc false = ⟨.ok doc, o0.state, false⟩)
    ∧ (∀ t1 : Int, t0 + T ≤ t1 →
        (load_locale_file T source o0.state t1 loc false).fetchedFromSource = true
        ∧ assocGet (load_locale_file T source o0.state t1 loc false).state.timestamps loc
            = some t1)
    ∧ (T = 0 → ∀ (fm : FMState) (t : Int),
        (∀ ts : Int, assocGet fm.timestamps loc = some ts → ts ≤ t) →
        (load_locale_file T source fm t loc false).fetchedFromSource = true) := by
  have ho0 : o0 = ⟨.ok doc, ⟨assocSet fm0.cache loc doc, assocSet fm0.timestamps loc t0⟩, true⟩ := by
    rw [ho]
    simp [load_locale_file, hmiss, hsrc]
  subst ho0
  refine ⟨rfl, rfl, assocGet_assocSet_same _ _ _, ?_, ?_, ?_⟩
  · intro t1 ht1
    have hvalid : is_cache_valid T
        ⟨assocSet fm0.cache loc doc, assocSet fm0.timestamps loc t0⟩ t1 loc = true := by
      simp only [is_cache_valid, assocGet_assocSet_same]
      simp only [decide_eq_true_eq]
      omega
    simp [load_locale_file, hvalid, assocGet_assocSet_same]
  · intro t1 ht1
    have hinvalid : is_cache_valid T
        ⟨assocSet fm0.cache loc doc, assocSet fm0.timestamps loc t0⟩ t1 loc = false := by
      simp only [is_cache_valid, assocGet_assocSet_same]
      simp only [decide_eq_false_iff_not]
      omega
    constructor
    · simp [load_locale_file, hinvalid, hsrc]
    · simp [load_locale_file, hinvalid, hsrc, assocGet_assocSet_same]
  · intro hT fm t hts
    have hinvalid : is_cache_valid T fm t loc = false := by
      unfold is_cache_valid
      cases hc : assocGet fm.cache loc with
      | none => rfl
      | some d =>
        cases hs : assocGet fm.timestamps loc with
        | none => rfl
        | some ts =>
          have := hts ts hs
          simp only [decide_eq_false_iff_not]
          omega
    simp [load_locale_file, hinvalid, hsrc]

theorem c6_cache_ttl_witness :
    (load_locale_file 2 constSource ⟨[], []⟩ 0 "en" false).fetchedFromSource = true
    ∧ load_locale_file 2 constSource
        (load_locale_file 2 constSource ⟨[], []⟩ 0 "en" false).state 1 "en" false
      = ⟨.ok [("k", PyValue.vstr "v")],
          (load_locale_file 2 constSource ⟨[], []⟩ 0 "en" false).state, false⟩
    ∧ (load_locale_file 2 constSource
        (load_locale_file 2 constSource ⟨[], []⟩ 0 "en" false).state 5 "en"
        false).fetchedFromSource = true :=
  have h := c6_cache_ttl 2 constSource ⟨[], []⟩ 0 "en" [("k", PyValue.vstr "v")]
    (load_locale_file 2 constSource ⟨[], []⟩ 0 "en" false) rfl rfl rfl
  ⟨h.1, h.2.2.2.1 1 (by decide), (h.2.2.2.2.1 5 (by decide)).1⟩
